import Mathlib

/-!
Verification of the CID framing helpers (`src/comp/cid.c`) and the list
decompressor tables (`d_generic.h`, `comp_list.h`) of the ROHC stack.

Machine integers are modelled as `Nat`/`Int`; byte buffers (`unsigned char *`)
as total maps `Nat → Nat` holding byte values; out-parameters become fields of
an explicit result structure.
-/

/-- The CID type of a ROHC channel (`SMALL_CID` / `LARGE_CID`), channel-wide
setting read from `context->compressor->medium.cid_type`. -/
inductive cid_type_t
  | SMALL_CID
  | LARGE_CID
deriving DecidableEq

/-- The channel medium; only the `cid_type` field is consulted by the CID
framing code, the remaining fields of the C struct are omitted. -/
structure c_medium where
  cid_type : cid_type_t

/-- The compressor, restricted to the field the CID code reads. -/
structure c_compressor where
  medium : c_medium

/-- The compression context, restricted to the fields `code_cid_values`
reads: the owning compressor and the context's CID (`int cid` in C). -/
structure c_context where
  compressor : c_compressor
  cid : Int

/-- `c_add_cid` from `src/comp/cid.c`:
`ret_value = 0xe0; ret_value |= (cid & 0x0f); return ret_value;`.
For a two's-complement `int`, `cid & 0x0f` is the nonnegative residue of
`cid` modulo 16, which is `Int.emod cid 16` (Lean's `%` on `Int`); the
result is below 256 so the `unsigned char` truncation is the identity. -/
def c_add_cid (cid : Int) : Nat :=
  0xe0 ||| (cid % 16).toNat

/-- Modelled from the spec: `c_bytesSdvl` is absent from the sources (only
its call site in `code_cid_values` is present). Per the spec's SDVL prefix
table, values fitting 7 bits take 1 byte, 14 bits 2 bytes, 21 bits 3 bytes
and 29 bits 4 bytes. -/
def c_bytesSdvl (value : Nat) : Nat :=
  if value < 2 ^ 7 then 1
  else if value < 2 ^ 14 then 2
  else if value < 2 ^ 21 then 3
  else 4

/-- Modelled from the spec: `c_encodeSdvl` is absent from the sources (only
its call site in `code_cid_values` is present). Per the spec, the encoding
self-describes via the leading bits of the first byte: `0xxxxxxx` carries a
7-bit value in 1 byte, `10xxxxxx ...` 14 bits in 2 bytes, `110xxxxx ...`
21 bits in 3 bytes and `111xxxxx ...` 29 bits in 4 bytes; subsequent bytes
carry the remaining value bits, big-endian. -/
def c_encodeSdvl (value : Nat) : List Nat :=
  if value < 2 ^ 7 then
    [value]
  else if value < 2 ^ 14 then
    [0x80 ||| value / 256, value % 256]
  else if value < 2 ^ 21 then
    [0xc0 ||| value / 65536, value / 256 % 256, value % 256]
  else
    [0xe0 ||| value / 16777216 % 32, value / 65536 % 256, value / 256 % 256,
     value % 256]

/-- Modelled from the spec: the SDVL decoder (decompressor side) is absent
from the sources. It reads the leading bits of the first byte to learn the
length, then reassembles the value big-endian; a buffer shorter than the
prefix implies is a malformed-input failure (`none`). -/
def d_sdvalue_decode : List Nat → Option Nat
  | [] => none
  | b0 :: rest =>
    if b0 < 0x80 then
      some b0
    else if b0 < 0xc0 then
      match rest with
      | [] => none
      | b1 :: _ => some (b0 % 0x40 * 256 + b1)
    else if b0 < 0xe0 then
      match rest with
      | b1 :: b2 :: _ => some (b0 % 0x20 * 65536 + b1 * 256 + b2)
      | _ => none
    else
      match rest with
      | b1 :: b2 :: b3 :: _ =>
        some (b0 % 0x20 * 16777216 + b1 * 65536 + b2 * 256 + b3)
      | _ => none

/-- Write the bytes of a list into a buffer at consecutive positions
starting at `pos` (models `c_encodeSdvl` storing into `&dest[counter]`). -/
def write_bytes : (Nat → Nat) → Nat → List Nat → (Nat → Nat)
  | dest, _, [] => dest
  | dest, pos, b :: bs => write_bytes (Function.update dest pos b) (pos + 1) bs

/-- Result of `code_cid_values`: the buffer after the call, the value stored
through the `first_position` out-pointer, and the returned counter. -/
structure code_cid_result where
  dest : Nat → Nat
  first_position : Nat
  counter : Nat

/-- `code_cid_values` from `src/comp/cid.c`. Small-CID channel: a positive
CID emits the add-CID byte at `dest[0]`, sets `*first_position = 1` and
returns 2; CID 0 writes nothing, sets `*first_position = 0` and returns 1.
Large-CID channel: `*first_position = 0`, counter becomes 1, the SDVL
encoding of the CID is stored at `&dest[1]` and the SDVL byte count is added
to the counter. `dest_size` is taken but never consulted, as in the C. -/
def code_cid_values (context : c_context) (dest : Nat → Nat)
    (dest_size : Int) : code_cid_result :=
  if context.compressor.medium.cid_type = cid_type_t.SMALL_CID then
    if context.cid > 0 then
      { dest := Function.update dest 0 (c_add_cid context.cid)
        first_position := 1
        counter := 2 }
    else
      { dest := dest
        first_position := 0
        counter := 1 }
  else
    { dest := write_bytes dest 1 (c_encodeSdvl context.cid.toNat)
      first_position := 0
      counter := 1 + c_bytesSdvl context.cid.toNat }

/-- IPv6 extension header types (`ext_header_version` in `comp_list.h`);
CSRC lists are disabled in the source. -/
inductive ext_header_version
  | HBH
  | DEST
  | RTHDR
  | AH
deriving DecidableEq

/-- The protocol number of each extension header type, as assigned by the
C enum (`HBH = 0, DEST = 60, RTHDR = 43, AH = 51`). -/
def ext_header_version.code : ext_header_version → Nat
  | .HBH => 0
  | .DEST => 60
  | .RTHDR => 43
  | .AH => 51

/-- A list item (`rohc_list_item` in `comp_list.h`): item type, byte length
and item data. -/
structure rohc_list_item where
  type : ext_header_version
  length : Nat
  data : List Nat

/-- An element of a compressed list (`list_elt`): the item and its index in
the based table. The `next_elt`/`prev_elt` chaining is represented by the
position inside a Lean list. -/
structure list_elt where
  item : rohc_list_item
  index_table : Int

/-- A compression list (`c_list`): generation id plus the chain of elements
hanging off `first_elt`. -/
structure c_list where
  gen_id : Int
  elts : List list_elt

/-- A decompression translation table entry (`d_translation`): the `known`
flag (C int, 1 when the mapping item/index is established) and the item
pointer (possibly null). -/
structure d_translation where
  known : Int
  item : Option rohc_list_item

/-- `#define MAX_ITEM 15` from `d_generic.h`; guarded there by
`#if MAX_ITEM <= 7 #error ...` because slot indices are stored on 3 bits. -/
def MAX_ITEM : Nat := 15

/-- `#define LIST_COMP_WINDOW 100` from `d_generic.h`. -/
def LIST_COMP_WINDOW : Nat := 100

/-- The list decompressor (`struct list_decomp` in `d_generic.h`). The
`list_table` array of `LIST_COMP_WINDOW` list pointers is a map from slot
index to an optional list; `based_table` and `trans_table` are arrays of
exactly `MAX_ITEM` entries. The function-pointer handlers of the C struct
carry behaviour, not state, and are omitted. -/
structure list_decomp where
  ref_list : Option c_list
  list_table : Fin LIST_COMP_WINDOW → Option c_list
  based_table : Fin MAX_ITEM → rohc_list_item
  trans_table : Fin MAX_ITEM → d_translation
  counter_list : Int
  counter : Int
  list_decomp_flag : Int
  ref_ok : Int
  size_ext : Int

/-- Helper: bitwise-or of 0xe0 with a nibble-sized value is addition. -/
theorem lor_224_32 : ∀ x < 32, 224 ||| x = 224 + x := by decide

/-- Helper: bitwise-or of 0x80 with a 6-bit value is addition. -/
theorem lor_128_64 : ∀ x < 64, 128 ||| x = 128 + x := by decide

/-- Helper: bitwise-or of 0xc0 with a 5-bit value is addition. -/
theorem lor_192_32 : ∀ x < 32, 192 ||| x = 192 + x := by decide

/-- C1: for every CID `c` in `[0, 15]`, the add-CID byte computed by
`c_add_cid` equals `0xE0 ||| (c &&& 0x0F)`, i.e. its high nibble is `1110`
(14) and its low nibble is `c`. -/
theorem c_add_cid_spec (c : Int) (h0 : 0 ≤ c) (h15 : c ≤ 15) :
    c_add_cid c = 0xe0 ||| c.toNat ∧
    c_add_cid c / 16 = 14 ∧
    c_add_cid c % 16 = c.toNat := by
  have hmod : c % 16 = c := Int.emod_eq_of_lt h0 (by omega)
  have hlt : c.toNat < 32 := by omega
  have hor := lor_224_32 c.toNat hlt
  unfold c_add_cid
  rw [hmod]
  refine ⟨rfl, ?_, ?_⟩ <;> rw [show (0xe0 : Nat) = 224 from rfl, hor] <;> omega

/-- Witness for C1 at the CID 5. -/
theorem c_add_cid_spec_witness :
    c_add_cid 5 = 0xe0 ||| (5 : Int).toNat ∧
    c_add_cid 5 / 16 = 14 ∧
    c_add_cid 5 % 16 = (5 : Int).toNat :=
  c_add_cid_spec 5 (by decide) (by decide)

/-- C8: for every `int` argument, also above 15 and negative, `c_add_cid`
returns a byte in `[0xE0, 0xEF]`; only the low 4 bits of the argument matter,
so arguments congruent modulo 16 give the same add-CID byte. -/
theorem c_add_cid_range_congr (cid a b : Int) (hab : a % 16 = b % 16) :
    (0xe0 ≤ c_add_cid cid ∧ c_add_cid cid ≤ 0xef) ∧
    c_add_cid a = c_add_cid b := by
  constructor
  · have h0 : 0 ≤ cid % 16 := Int.emod_nonneg cid (by decide)
    have h16 : cid % 16 < 16 := Int.emod_lt_of_pos cid (by decide)
    have hlt : (cid % 16).toNat < 32 := by omega
    have hor := lor_224_32 (cid % 16).toNat hlt
    unfold c_add_cid
    rw [show (0xe0 : Nat) = 224 from rfl, hor]
    omega
  · unfold c_add_cid
    rw [hab]

/-- Witness for C8: `-7 ≡ 9 (mod 16)` maps into `[0xE0, 0xEF]`, and the
congruent arguments 17 and 1 give the same byte. -/
theorem c_add_cid_range_congr_witness :
    ((0xe0 ≤ c_add_cid (-7) ∧ c_add_cid (-7) ≤ 0xef) ∧
      c_add_cid 17 = c_add_cid 1) :=
  c_add_cid_range_congr (-7) 17 1 (by decide)

/-- C2: on a small-CID channel with the context's CID in `[1, 15]`,
`code_cid_values` writes the add-CID byte `0xE0 ||| cid` at position 0 of
the destination buffer, sets `*first_position` to 1 so the ROHC type octet
immediately follows the add-CID byte, and returns 2. -/
theorem code_cid_values_small_pos (ctx : c_context) (dest : Nat → Nat)
    (dest_size : Int)
    (hty : ctx.compressor.medium.cid_type = cid_type_t.SMALL_CID)
    (h1 : 1 ≤ ctx.cid) (h15 : ctx.cid ≤ 15) :
    (code_cid_values ctx dest dest_size).dest 0 = 0xe0 ||| ctx.cid.toNat ∧
    (code_cid_values ctx dest dest_size).first_position = 1 ∧
    (code_cid_values ctx dest dest_size).counter = 2 := by
  have hmod : ctx.cid % 16 = ctx.cid := Int.emod_eq_of_lt (by omega) (by omega)
  unfold code_cid_values
  rw [if_pos hty, if_pos (by omega)]
  refine ⟨?_, rfl, rfl⟩
  show Function.update dest 0 (c_add_cid ctx.cid) 0 = _
  rw [Function.update_same]
  unfold c_add_cid
  rw [hmod]

/-- Witness for C2: CID 3 on a small-CID channel, all-zero buffer. -/
theorem code_cid_values_small_pos_witness :
    (code_cid_values ⟨⟨⟨cid_type_t.SMALL_CID⟩⟩, 3⟩ (fun _ => 0) 0).dest 0 =
      0xe0 ||| (3 : Int).toNat ∧
    (code_cid_values ⟨⟨⟨cid_type_t.SMALL_CID⟩⟩, 3⟩ (fun _ => 0) 0).first_position = 1 ∧
    (code_cid_values ⟨⟨⟨cid_type_t.SMALL_CID⟩⟩, 3⟩ (fun _ => 0) 0).counter = 2 :=
  code_cid_values_small_pos _ _ _ rfl (by decide) (by decide)

/-- C3: on a small-CID channel with the context's CID equal to 0,
`code_cid_values` emits no add-CID byte: it sets `*first_position` to 0 and
returns 1, reserving only the type-octet position. -/
theorem code_cid_values_small_zero (ctx : c_context) (dest : Nat → Nat)
    (dest_size : Int)
    (hty : ctx.compressor.medium.cid_type = cid_type_t.SMALL_CID)
    (h0 : ctx.cid = 0) :
    (code_cid_values ctx dest dest_size).first_position = 0 ∧
    (code_cid_values ctx dest dest_size).counter = 1 := by
  unfold code_cid_values
  rw [if_pos hty, if_neg (by omega)]
  exact ⟨rfl, rfl⟩

/-- Witness for C3: CID 0 on a small-CID channel. -/
theorem code_cid_values_small_zero_witness :
    (code_cid_values ⟨⟨⟨cid_type_t.SMALL_CID⟩⟩, 0⟩ (fun _ => 0) 0).first_position = 0 ∧
    (code_cid_values ⟨⟨⟨cid_type_t.SMALL_CID⟩⟩, 0⟩ (fun _ => 0) 0).counter = 1 :=
  code_cid_values_small_zero _ _ _ rfl rfl

/-- C10: on a small-CID channel with the context's CID equal to 0,
`code_cid_values` leaves every byte of the destination buffer unchanged; it
only sets `*first_position` to 0 and returns 1, leaving the type octet to be
written by the caller. -/
theorem code_cid_values_small_zero_frame (ctx : c_context) (dest : Nat → Nat)
    (dest_size : Int)
    (hty : ctx.compressor.medium.cid_type = cid_type_t.SMALL_CID)
    (h0 : ctx.cid = 0) :
    (∀ i, (code_cid_values ctx dest dest_size).dest i = dest i) ∧
    (code_cid_values ctx dest dest_size).first_position = 0 ∧
    (code_cid_values ctx dest dest_size).counter = 1 := by
  unfold code_cid_values
  rw [if_pos hty, if_neg (by omega)]
  exact ⟨fun i => rfl, rfl, rfl⟩

/-- Witness for C10: CID 0 on a small-CID channel, buffer constantly 7. -/
theorem code_cid_values_small_zero_frame_witness :
    (∀ i, (code_cid_values ⟨⟨⟨cid_type_t.SMALL_CID⟩⟩, 0⟩ (fun _ => 7) 0).dest i =
      (fun _ => 7 : Nat → Nat) i) ∧
    (code_cid_values ⟨⟨⟨cid_type_t.SMALL_CID⟩⟩, 0⟩ (fun _ => 7) 0).first_position = 0 ∧
    (code_cid_values ⟨⟨⟨cid_type_t.SMALL_CID⟩⟩, 0⟩ (fun _ => 7) 0).counter = 1 :=
  code_cid_values_small_zero_frame _ _ _ rfl rfl

/-- C9: the bytes written by `code_cid_values`, the value stored through
`first_position` and the returned counter are independent of the `dest_size`
argument: two runs differing only in `dest_size` produce identical results,
because the function never consults `dest_size`. -/
theorem code_cid_values_ignores_dest_size (ctx : c_context) (dest : Nat → Nat)
    (ds1 ds2 : Int) :
    code_cid_values ctx dest ds1 = code_cid_values ctx dest ds2 := rfl

/-- Helper: positions below the write start are untouched by `write_bytes`. -/
theorem write_bytes_lt (l : List Nat) :
    ∀ dest pos q, q < pos → write_bytes dest pos l q = dest q := by
  induction l with
  | nil => intro dest pos q _; rfl
  | cons b bs ih =>
    intro dest pos q hq
    show write_bytes (Function.update dest pos b) (pos + 1) bs q = dest q
    rw [ih _ _ _ (by omega)]
    exact Function.update_noteq (by omega) _ _

/-- Helper: `write_bytes` stores the i-th byte of the list at `pos + i`. -/
theorem write_bytes_get (l : List Nat) :
    ∀ dest pos i (h : i < l.length),
      write_bytes dest pos l (pos + i) = l.get ⟨i, h⟩ := by
  induction l with
  | nil => intro _ _ i h; exact absurd h (by simp)
  | cons b bs ih =>
    intro dest pos i h
    cases i with
    | zero =>
      show write_bytes (Function.update dest pos b) (pos + 1) bs (pos + 0) = b
      rw [write_bytes_lt bs _ _ _ (by omega)]
      simp
    | succ j =>
      show write_bytes (Function.update dest pos b) (pos + 1) bs
        (pos + (j + 1)) = (b :: bs).get ⟨j + 1, h⟩
      have hpos : pos + (j + 1) = (pos + 1) + j := by omega
      rw [hpos, ih _ _ j (by simpa using h)]
      rfl

/-- C4: on a large-CID channel, `code_cid_values` reserves the position of
the ROHC type octet at the start of the buffer (`*first_position = 0`) and
places the SDVL-encoded CID immediately after the type octet (byte i of the
encoding at `dest[1 + i]`), returning 1 plus the SDVL-encoded byte length of
the CID. -/
theorem code_cid_values_large (ctx : c_context) (dest : Nat → Nat)
    (dest_size : Int)
    (hty : ctx.compressor.medium.cid_type = cid_type_t.LARGE_CID) :
    (code_cid_values ctx dest dest_size).first_position = 0 ∧
    (code_cid_values ctx dest dest_size).counter =
      1 + c_bytesSdvl ctx.cid.toNat ∧
    (c_encodeSdvl ctx.cid.toNat).length = c_bytesSdvl ctx.cid.toNat ∧
    ∀ i (h : i < (c_encodeSdvl ctx.cid.toNat).length),
      (code_cid_values ctx dest dest_size).dest (1 + i) =
        (c_encodeSdvl ctx.cid.toNat).get ⟨i, h⟩ := by
  have hne : ctx.compressor.medium.cid_type ≠ cid_type_t.SMALL_CID := by
    rw [hty]; intro hc; cases hc
  unfold code_cid_values
  rw [if_neg hne]
  refine ⟨rfl, rfl, ?_, ?_⟩
  · unfold c_encodeSdvl c_bytesSdvl
    split
    · rfl
    · split
      · rfl
      · split
        · rfl
        · rfl
  · intro i h
    exact write_bytes_get _ dest 1 i h

/-- Witness for C4: CID 300 on a large-CID channel. -/
theorem code_cid_values_large_witness :
    (code_cid_values ⟨⟨⟨cid_type_t.LARGE_CID⟩⟩, 300⟩ (fun _ => 0) 0).first_position = 0 ∧
    (code_cid_values ⟨⟨⟨cid_type_t.LARGE_CID⟩⟩, 300⟩ (fun _ => 0) 0).counter =
      1 + c_bytesSdvl (300 : Int).toNat ∧
    (c_encodeSdvl (300 : Int).toNat).length = c_bytesSdvl (300 : Int).toNat ∧
    ∀ i (h : i < (c_encodeSdvl (300 : Int).toNat).length),
      (code_cid_values ⟨⟨⟨cid_type_t.LARGE_CID⟩⟩, 300⟩ (fun _ => 0) 0).dest (1 + i) =
        (c_encodeSdvl (300 : Int).toNat).get ⟨i, h⟩ :=
  code_cid_values_large _ _ _ rfl

/-- C5: the list decompressor's sliding window of past list generations
holds at most 100 entries: `list_table` is indexed by `Fin LIST_COMP_WINDOW`,
`LIST_COMP_WINDOW = 100`, which satisfies the configured minimum of 2; in
any `list_decomp` state the number of occupied window slots is at most
100. -/
theorem list_comp_window_spec :
    LIST_COMP_WINDOW = 100 ∧ 2 ≤ LIST_COMP_WINDOW ∧
    ∀ d : list_decomp,
      (Finset.univ.filter fun i => (d.list_table i).isSome = true).card ≤ 100 := by
  refine ⟨rfl, by norm_num [LIST_COMP_WINDOW], fun d => ?_⟩
  have hle := Finset.card_filter_le (Finset.univ : Finset (Fin LIST_COMP_WINDOW))
    (fun i => (d.list_table i).isSome = true)
  simpa [LIST_COMP_WINDOW] using hle

/-- C6: the item slot table `based_table` and the translation table
`trans_table` of the list decompressor each have exactly `MAX_ITEM = 15`
slots (they are total maps on `Fin MAX_ITEM`, a type of exactly 15
indices), and `MAX_ITEM` is strictly greater than 7, so every 3-bit slot
index addresses a valid slot. -/
theorem max_item_spec :
    MAX_ITEM = 15 ∧ 7 < MAX_ITEM ∧
    Fintype.card (Fin MAX_ITEM) = 15 ∧
    ∀ i : Nat, i < 2 ^ 3 → i < MAX_ITEM := by
  refine ⟨rfl, by norm_num [MAX_ITEM], by simp [MAX_ITEM], ?_⟩
  intro i hi
  unfold MAX_ITEM
  omega

/-- Helper: the SDVL encoded length always matches `c_bytesSdvl`. -/
theorem sdvl_length (v : Nat) : (c_encodeSdvl v).length = c_bytesSdvl v := by
  unfold c_encodeSdvl c_bytesSdvl
  split
  · rfl
  · split
    · rfl
    · split
      · rfl
      · rfl

/-- Helper: SDVL round-trip on the 1-byte range. -/
theorem sdvl_rt_one (v : Nat) (h : v < 2 ^ 7) :
    d_sdvalue_decode (c_encodeSdvl v) = some v := by
  unfold c_encodeSdvl
  rw [if_pos h]
  simp only [d_sdvalue_decode]
  rw [if_pos (by omega : v < 0x80)]

/-- Helper: SDVL round-trip on the 2-byte range. -/
theorem sdvl_rt_two (v : Nat) (hlo : 2 ^ 7 ≤ v) (hhi : v < 2 ^ 14) :
    d_sdvalue_decode (c_encodeSdvl v) = some v := by
  have hor := lor_128_64 (v / 256) (by omega)
  unfold c_encodeSdvl
  rw [if_neg (by omega), if_pos hhi, hor]
  simp only [d_sdvalue_decode]
  rw [if_neg (by omega), if_pos (by omega)]
  exact congrArg some (by omega)

/-- Helper: SDVL round-trip on the 3-byte range. -/
theorem sdvl_rt_three (v : Nat) (hlo : 2 ^ 14 ≤ v) (hhi : v < 2 ^ 21) :
    d_sdvalue_decode (c_encodeSdvl v) = some v := by
  have hor := lor_192_32 (v / 65536) (by omega)
  unfold c_encodeSdvl
  rw [if_neg (by omega), if_neg (by omega), if_pos hhi, hor]
  simp only [d_sdvalue_decode]
  rw [if_neg (by omega), if_neg (by omega), if_pos (by omega)]
  exact congrArg some (by omega)

/-- Helper: SDVL round-trip on the 4-byte range. -/
theorem sdvl_rt_four (v : Nat) (hlo : 2 ^ 21 ≤ v) (hhi : v < 2 ^ 29) :
    d_sdvalue_decode (c_encodeSdvl v) = some v := by
  have hor := lor_224_32 (v / 16777216 % 32) (by omega)
  unfold c_encodeSdvl
  rw [if_neg (by omega), if_neg (by omega), if_neg (by omega), hor]
  simp only [d_sdvalue_decode]
  rw [if_neg (by omega), if_neg (by omega), if_neg (by omega)]
  exact congrArg some (by omega)

/-- C7: SDVL encode-then-decode is the identity on `[0, 2^29)`; the encoded
byte length follows the prefix table (1 byte below 2^7, 2 below 2^14, 3
below 2^21, 4 below 2^29); and the number of bytes written by `c_encodeSdvl`
equals the length reported by `c_bytesSdvl` for the same value. -/
theorem sdvl_roundtrip (v : Nat) (h : v < 2 ^ 29) :
    d_sdvalue_decode (c_encodeSdvl v) = some v ∧
    (c_encodeSdvl v).length = c_bytesSdvl v ∧
    (v < 2 ^ 7 → c_bytesSdvl v = 1) ∧
    (2 ^ 7 ≤ v → v < 2 ^ 14 → c_bytesSdvl v = 2) ∧
    (2 ^ 14 ≤ v → v < 2 ^ 21 → c_bytesSdvl v = 3) ∧
    (2 ^ 21 ≤ v → c_bytesSdvl v = 4) := by
  refine ⟨?_, sdvl_length v, ?_, ?_, ?_, ?_⟩
  · by_cases h1 : v < 2 ^ 7
    · exact sdvl_rt_one v h1
    · by_cases h2 : v < 2 ^ 14
      · exact sdvl_rt_two v (by omega) h2
      · by_cases h3 : v < 2 ^ 21
        · exact sdvl_rt_three v (by omega) h3
        · exact sdvl_rt_four v (by omega) h
  · intro h1
    unfold c_bytesSdvl
    rw [if_pos h1]
  · intro hlo hhi
    unfold c_bytesSdvl
    rw [if_neg (by omega), if_pos hhi]
  · intro hlo hhi
    unfold c_bytesSdvl
    rw [if_neg (by omega), if_neg (by omega), if_pos hhi]
  · intro hlo
    unfold c_bytesSdvl
    rw [if_neg (by omega), if_neg (by omega), if_neg (by omega)]

/-- Witness for C7 at the value 300 (the spec's large-CID example,
encoded `0x81 0x2C`). -/
theorem sdvl_roundtrip_witness :
    d_sdvalue_decode (c_encodeSdvl 300) = some 300 ∧
    (c_encodeSdvl 300).length = c_bytesSdvl 300 ∧
    (300 < 2 ^ 7 → c_bytesSdvl 300 = 1) ∧
    (2 ^ 7 ≤ 300 → 300 < 2 ^ 14 → c_bytesSdvl 300 = 2) ∧
    (2 ^ 14 ≤ 300 → 300 < 2 ^ 21 → c_bytesSdvl 300 = 3) ∧
    (2 ^ 21 ≤ 300 → c_bytesSdvl 300 = 4) :=
  sdvl_roundtrip 300 (by norm_num)
